import Mathlib

/-!
Verification of `src/client/common/terminal/syncTerminalService.ts`:
the completion-detection state machine (`ExecutionState`) and the
synchronizing command runner (`SynchronousTerminalService`).

The TypeScript is shallowly embedded: strings are Lean `String`s, the
`State` bitset is a `Nat`, the polling loop and the promise machinery are
modelled as pure step functions and event traces, and fallible operations
return `Except`.
-/

namespace SyncTerminal

/-- `startsWithSeq pat l` is true when `pat` is an initial segment of `l`.
Building block for the JS `String.prototype.includes` used by
`getLockFileState`. -/
def startsWithSeq : List Char → List Char → Bool
  | [], _ => true
  | _ :: _, [] => false
  | p :: ps, c :: cs => p == c && startsWithSeq ps cs

/-- `containsSeq pat l` is true when `pat` occurs as a contiguous
subsequence of `l`. -/
def containsSeq (pat : List Char) : List Char → Bool
  | [] => pat.isEmpty
  | c :: rest => startsWithSeq pat (c :: rest) || containsSeq pat rest

/-- JS `source.includes(pat)`: substring test on the characters. -/
def strIncludes (source pat : String) : Bool :=
  containsSeq pat.data source.data

/-- The `State` enum of the source: a bitset over
`notStarted = 0`, `started = 1`, `completed = 2`, `errored = 4`. -/
def State.notStarted : Nat := 0

/-- `State.started = 1`. -/
def State.started : Nat := 1

/-- `State.completed = 2`. -/
def State.completed : Nat := 2

/-- `State.errored = 4`. -/
def State.errored : Nat := 4

/-- `ExecutionState.getLockFileState`: derives the execution state purely
from substring markers in the signal file's contents.  Total: any contents
yield a state, never an error. -/
def getLockFileState (source : String) : Nat :=
  let state := State.notStarted
  let state := if strIncludes source "START" then state ||| State.started else state
  let state := if strIncludes source "END" then state ||| State.completed else state
  let state := if strIncludes source "FAIL" then state ||| (State.completed ||| State.errored) else state
  state

/-- The rejection message built in `registerStateUpdate` when the errored
bit is set: carries the original command text joined with spaces. -/
def errorMessage (command : List String) : String :=
  "Command failed with errors, check the terminal for details. Command: " ++
    String.intercalate " " command

/-- What one poll iteration does to the watcher's completion future. -/
inductive PollOutcome where
  | reject (msg : String)
  | resolve
  | keepPolling
deriving DecidableEq, Repr

/-- The body of the `setInterval` callback in
`ExecutionState.registerStateUpdate`: compute the state from the signal
file contents, then reject on the errored bit, resolve on the completed
bit, otherwise keep polling. -/
def pollStep (command : List String) (source : String) : PollOutcome :=
  let state := getLockFileState source
  if state &&& State.errored != 0 then
    .reject (errorMessage command)
  else if state &&& State.completed != 0 then
    .resolve
  else
    .keepPolling

/-- Settlement status of the `Deferred` backing `ExecutionState.completed`. -/
inductive Settled where
  | unsettled
  | resolvedS
  | rejectedS (msg : String)
deriving DecidableEq, Repr

/-- A deferred settles at most once: `resolve`/`reject` on a settled
deferred is a no-op. -/
def deferredStep (s : Settled) (o : PollOutcome) : Settled :=
  match s with
  | .unsettled =>
    match o with
    | .reject m => .rejectedS m
    | .resolve => .resolvedS
    | .keepPolling => .unsettled
  | s => s

/-- Run the watcher over a finite sequence of observed signal-file
contents, one poll iteration per observation. -/
def watchRun (command : List String) (contents : List String) : Settled :=
  contents.foldl (fun s src => deferredStep s (pollStep command src)) .unsettled

/-- Modelled from the spec: the quoting utility `fileToCommandArgument`
(string extensions, not under `src/`).  Per the spec, a token that could
contain shell-significant characters is quoted for safe injection into the
terminal's text stream; we model quoting as wrapping a token containing a
space in double quotes. -/
def fileToCommandArgument (s : String) : String :=
  if strIncludes s " " then "\"" ++ s ++ "\"" else s

/-- The argument list built in `SynchronousTerminalService.sendCommand`
(lines 126–131): helper script path quoted, command quoted, the original
`args` spread verbatim, then the signal-file path quoted. -/
def rewrittenArgs (helper command : String) (args : List String) (lockPath : String) : List String :=
  [fileToCommandArgument helper, fileToCommandArgument command] ++ args ++
    [fileToCommandArgument lockPath]

/-- The argument list as the spec words it: every token, including each
element of `args`, goes through the quoting utility. -/
def specRewrittenArgs (helper command : String) (args : List String) (lockPath : String) : List String :=
  [fileToCommandArgument helper, fileToCommandArgument command] ++
    args.map fileToCommandArgument ++ [fileToCommandArgument lockPath]

/-- Observable actions of one `sendCommand` call and of the service's
`dispose`. -/
inductive Event where
  | createTempFile (path : String)
  | pushDisposable (path : String)
  | setIntervalStart
  | terminalSendCommand (cmd : String) (args : List String)
  | awaitRace
  | clearIntervalStop
  | disposeTempFile (path : String)
deriving DecidableEq, Repr

/-- Outcome of the watcher's `completed` promise during the race. -/
inductive WatcherOutcome where
  | resolved
  | rejected (msg : String)
  | pending
deriving DecidableEq, Repr

/-- `state.completed.catch(noop)` (line 132): the watcher's rejection is
swallowed and turned into a successful resolution. -/
def completedCatchNoop : WatcherOutcome → WatcherOutcome
  | .rejected _ => .resolved
  | o => o

/-- Modelled from the spec: `Cancellation.race` (`common/cancellation.ts`,
not under `src/`) races the given future against the cancellation signal;
if cancellation fires first the wait returns without error.  `none` means
neither side ever settles, so the await never returns. -/
def raceOutcome : WatcherOutcome → Bool → Option (Except String Unit)
  | .resolved, _ => some (.ok ())
  | .rejected m, _ => some (.error m)
  | .pending, true => some (.ok ())
  | .pending, false => none

/-- External collaborators of one `sendCommand` call, each as the result
it would produce. -/
structure Env where
  /-- `fs.createTemporaryFile('.log')`: the fresh path, or a filesystem
  failure. -/
  createTempFileResult : Except String String
  /-- The optional `pythonInterpreter` constructor argument (its `path`). -/
  pythonInterpreter : Option String
  /-- `interpreter.getActiveInterpreter(undefined)`: may fail, may return
  no interpreter (its `path` otherwise). -/
  getActiveInterpreter : Except String (Option String)
  /-- Result of `terminalService.sendCommand` for the rewritten
  invocation. -/
  terminalSendResult : Except String Unit
  /-- `shellExecFile`, the helper script path joined at module load. -/
  helperScriptPath : String

/-- `this.pythonInterpreter || (await this.interpreter.getActiveInterpreter(undefined))`:
the constructor-supplied interpreter object wins when present (objects are
truthy), otherwise the active-environment resolver is queried. -/
def resolveInterpreter (env : Env) : Except String (Option String) :=
  match env.pythonInterpreter with
  | some p => .ok (some p)
  | none => env.getActiveInterpreter

/-- `pythonExec?.path || 'python'`: fall back to the literal `python` when
no interpreter was resolved or its path is empty (falsy). -/
def interpOrPython : Option String → String
  | some p => if p.isEmpty then "python" else p
  | none => "python"

/-- What one `sendCommand` call did: its event trace, its result (`none`
when the call never returns), and the service's disposables list after
the call. -/
structure SendOutcome where
  events : List Event
  result : Option (Except String Unit)
  disposablesAfter : List String
deriving Repr

/-- The part of `sendCommand` after the lock file was created: construct
the `ExecutionState` (which registers the polling interval), then inside
`try` resolve the interpreter, send the rewritten invocation, and race the
watcher (rejection swallowed by `catch(noop)`) against cancellation; the
`finally` disposes the watcher and the lock file on every returning path. -/
def sendCommandLocked (disposables : List String) (env : Env) (command : String)
    (args : List String) (watcher : WatcherOutcome) (cancelFired : Bool)
    (path : String) : SendOutcome :=
  let setup : List Event := [.createTempFile path, .pushDisposable path, .setIntervalStart]
  let dispAfter := disposables ++ [path]
  let cleanup : List Event := [.clearIntervalStop, .disposeTempFile path]
  match resolveInterpreter env with
  | .error e =>
    { events := setup ++ cleanup, result := some (.error e), disposablesAfter := dispAfter }
  | .ok interp =>
    let sendEv : Event := .terminalSendCommand (interpOrPython interp)
      (rewrittenArgs env.helperScriptPath command args path)
    match env.terminalSendResult with
    | .error e =>
      { events := setup ++ [sendEv] ++ cleanup, result := some (.error e),
        disposablesAfter := dispAfter }
    | .ok () =>
      match raceOutcome (completedCatchNoop watcher) cancelFired with
      | none =>
        { events := setup ++ [sendEv, .awaitRace], result := none,
          disposablesAfter := dispAfter }
      | some r =>
        { events := setup ++ [sendEv, .awaitRace] ++ cleanup, result := some r,
          disposablesAfter := dispAfter }

/-- `SynchronousTerminalService.sendCommand`.  Without a cancellation
token the call forwards directly to `terminalService.sendCommand`.  With
one, it creates the lock file (pushing it onto the service's disposables),
starts the watcher, and proceeds as in `sendCommandLocked`. -/
def sendCommand (disposables : List String) (env : Env) (command : String)
    (args : List String) (cancel : Bool) (watcher : WatcherOutcome)
    (cancelFired : Bool) : SendOutcome :=
  if !cancel then
    { events := [.terminalSendCommand command args],
      result := some env.terminalSendResult, disposablesAfter := disposables }
  else
    match env.createTempFileResult with
    | .error e => { events := [], result := some (.error e), disposablesAfter := disposables }
    | .ok path => sendCommandLocked disposables env command args watcher cancelFired path

/-- The disposal loop of `SynchronousTerminalService.dispose`: shift each
disposable off the list and call its `dispose` inside `try { } catch {
noop() }`, so one throwing disposable never stops the rest.  `throws`
tells which disposables would throw; the attempt is recorded either way. -/
def disposeLoop (throws : String → Bool) : List String → List Event
  | [] => []
  | p :: rest =>
    let _swallowed := throws p
    Event.disposeTempFile p :: disposeLoop throws rest

/-- True when a `sendCommand` result is a rejection. -/
def isRejection : Option (Except String Unit) → Bool
  | some (.error _) => true
  | _ => false

/-- A concrete environment in which every collaborator succeeds. -/
def envB : Env :=
  { createTempFileResult := .ok "/tmp/lock.log"
    pythonInterpreter := some "/usr/bin/python3"
    getActiveInterpreter := .ok none
    terminalSendResult := .ok ()
    helperScriptPath := "/ext/pythonFiles/shell_exec.py" }

/-- A concrete environment in which creating the temporary signal file
fails. -/
def envErr : Env :=
  { createTempFileResult := .error "ENOSPC"
    pythonInterpreter := some "/usr/bin/python3"
    getActiveInterpreter := .ok none
    terminalSendResult := .ok ()
    helperScriptPath := "/ext/pythonFiles/shell_exec.py" }

theorem containsSeq_nil (l : List Char) : containsSeq [] l = true := by
  cases l <;> simp [containsSeq, startsWithSeq]

theorem startsWithSeq_append (sub post : List Char) :
    startsWithSeq sub (sub ++ post) = true := by
  induction sub with
  | nil => rfl
  | cons a as ih => simp [startsWithSeq, ih]

theorem containsSeq_append (sub pre post : List Char) :
    containsSeq sub (pre ++ sub ++ post) = true := by
  induction pre with
  | nil =>
    cases sub with
    | nil => simpa using containsSeq_nil post
    | cons c cs =>
      simp [containsSeq]
      exact Or.inl (startsWithSeq_append (c :: cs) post)
  | cons a pre ih =>
    simp [containsSeq]
    exact Or.inr (by rw [← List.append_assoc]; exact ih)

theorem strIncludes_append_left (p j : String) : strIncludes (p ++ j) j = true := by
  have h := containsSeq_append j.data p.data []
  rw [List.append_nil] at h
  unfold strIncludes
  rw [String.data_append]
  exact h

theorem errorMessage_contains (command : List String) :
    strIncludes (errorMessage command) (String.intercalate " " command) = true := by
  unfold errorMessage
  exact strIncludes_append_left _ _

theorem disposeLoop_eq_map (throws : String → Bool) (l : List String) :
    disposeLoop throws l = l.map Event.disposeTempFile := by
  induction l with
  | nil => rfl
  | cons p rest ih => simp [disposeLoop, ih]

/-- C3: For every signal-file contents, the derived execution state has
the started bit set iff the contents contain `"START"`, the completed bit
set iff they contain `"END"` or `"FAIL"`, and the errored bit set iff they
contain `"FAIL"`. -/
theorem getLockFileState_bits (source : String) :
    (getLockFileState source &&& State.started ≠ 0 ↔ strIncludes source "START" = true) ∧
    (getLockFileState source &&& State.completed ≠ 0 ↔
      (strIncludes source "END" = true ∨ strIncludes source "FAIL" = true)) ∧
    (getLockFileState source &&& State.errored ≠ 0 ↔ strIncludes source "FAIL" = true) := by
  cases hS : strIncludes source "START" <;>
    cases hE : strIncludes source "END" <;>
      cases hF : strIncludes source "FAIL" <;>
        simp [getLockFileState, hS, hE, hF, State.notStarted, State.started,
          State.completed, State.errored] <;> decide

/-- C4: For every signal-file contents containing `"FAIL"` (whatever
else it contains), a poll iteration rejects the watcher's completion
future, with a message that contains the original command text. -/
theorem pollStep_fail_rejects (command : List String) (source : String)
    (hF : strIncludes source "FAIL" = true) :
    pollStep command source = .reject (errorMessage command) ∧
    strIncludes (errorMessage command) (String.intercalate " " command) = true := by
  refine ⟨?_, errorMessage_contains command⟩
  cases hS : strIncludes source "START" <;>
    cases hE : strIncludes source "END" <;>
      simp [pollStep, getLockFileState, hS, hE, hF, State.notStarted, State.started,
        State.completed, State.errored]

/-- Witness for C4 at contents `"STARTEND FAIL"` and command `["build"]`. -/
theorem pollStep_fail_rejects_witness :
    strIncludes "STARTEND FAIL" "FAIL" = true ∧
    (pollStep ["build"] "STARTEND FAIL" = .reject (errorMessage ["build"]) ∧
      strIncludes (errorMessage ["build"]) (String.intercalate " " ["build"]) = true) :=
  ⟨by decide, pollStep_fail_rejects ["build"] "STARTEND FAIL" (by decide)⟩

/-- C5: For every signal-file contents containing `"END"` but not
`"FAIL"`, a poll iteration resolves the watcher's completion future,
whether or not `"START"` is present. -/
theorem pollStep_end_resolves (command : List String) (source : String)
    (hE : strIncludes source "END" = true) (hF : strIncludes source "FAIL" = false) :
    pollStep command source = .resolve := by
  cases hS : strIncludes source "START" <;>
    simp [pollStep, getLockFileState, hS, hE, hF, State.notStarted, State.started,
      State.completed, State.errored] <;> decide

/-- Witness for C5 at contents `"END"`, which contain no `"START"`. -/
theorem pollStep_end_resolves_witness :
    strIncludes "END" "END" = true ∧ strIncludes "END" "FAIL" = false ∧
    strIncludes "END" "START" = false ∧
    pollStep ["build"] "END" = .resolve :=
  ⟨by decide, by decide, by decide, pollStep_end_resolves ["build"] "END" (by decide) (by decide)⟩

/-- C6: While every observed signal-file contents contains neither
`"END"` nor `"FAIL"`, the watcher's completion future never settles: the
run of poll iterations leaves the deferred unsettled. -/
theorem watchRun_no_marker_unsettled (command : List String) (contents : List String)
    (h : ∀ src ∈ contents, strIncludes src "END" = false ∧ strIncludes src "FAIL" = false) :
    watchRun command contents = .unsettled := by
  induction contents with
  | nil => rfl
  | cons src rest ih =>
    have hsrc := h src (by simp)
    have hstep : pollStep command src = .keepPolling := by
      cases hS : strIncludes src "START" <;>
        simp [pollStep, getLockFileState, hS, hsrc.1, hsrc.2, State.notStarted,
          State.started, State.completed, State.errored]
    have hrest : ∀ s ∈ rest, strIncludes s "END" = false ∧ strIncludes s "FAIL" = false :=
      fun s hs => h s (by simp [hs])
    calc watchRun command (src :: rest)
        = watchRun command rest := by
          simp [watchRun, deferredStep, hstep]
      _ = .unsettled := ih hrest

/-- Witness for C6 over the observations `["", "START", "STAR"]`. -/
theorem watchRun_no_marker_unsettled_witness :
    (∀ src ∈ ["", "START", "STAR"], strIncludes src "END" = false ∧
      strIncludes src "FAIL" = false) ∧
    watchRun ["build"] ["", "START", "STAR"] = .unsettled :=
  ⟨by decide, watchRun_no_marker_unsettled ["build"] ["", "START", "STAR"] (by decide)⟩

/-- C7: Without a cancellation token, `sendCommand` forwards the command
and args unchanged and unquoted to the underlying terminal service and
returns its result: no signal file is created, no watcher is constructed,
no waiting occurs, and the disposables list is untouched. -/
theorem sendCommand_no_cancel_passthrough (disposables : List String) (env : Env)
    (command : String) (args : List String) (watcher : WatcherOutcome) (cancelFired : Bool) :
    sendCommand disposables env command args false watcher cancelFired =
      { events := [.terminalSendCommand command args],
        result := some env.terminalSendResult,
        disposablesAfter := disposables } := rfl

/-- C1 counterexample: with a cancellation token supplied, the watcher
rejecting (command failure, cancellation never fired), `sendCommand` does
not reject — `state.completed.catch(noop)` swallows the rejection and the
call resolves. -/
theorem sendCommand_failure_no_rejection_counterexample :
    isRejection (sendCommand [] envB "build" [] true
        (.rejected (errorMessage ["build"])) false).result = false ∧
    (sendCommand [] envB "build" [] true
        (.rejected (errorMessage ["build"])) false).result = some (.ok ()) :=
  ⟨rfl, rfl⟩

/-- C1 amended: when the watcher's completion future rejects and
cancellation has not fired, `sendCommand` resolves successfully — the
rejection, whose message does carry the original command text, is
swallowed by the `catch(noop)` attached to the completion promise. -/
theorem sendCommand_swallows_watcher_rejection (disposables : List String) (env : Env)
    (command : String) (args : List String) (path : String) (i : Option String)
    (hLock : env.createTempFileResult = .ok path)
    (hInterp : resolveInterpreter env = .ok i)
    (hSend : env.terminalSendResult = .ok ()) :
    (sendCommand disposables env command args true
        (.rejected (errorMessage (command :: args))) false).result = some (.ok ()) ∧
    strIncludes (errorMessage (command :: args))
      (String.intercalate " " (command :: args)) = true := by
  refine ⟨?_, errorMessage_contains _⟩
  simp [sendCommand, hLock, sendCommandLocked, hInterp, hSend, completedCatchNoop,
    raceOutcome]

/-- Witness for the amended C1 in the all-success environment. -/
theorem sendCommand_swallows_watcher_rejection_witness :
    envB.createTempFileResult = Except.ok "/tmp/lock.log" ∧
    resolveInterpreter envB = Except.ok (some "/usr/bin/python3") ∧
    envB.terminalSendResult = Except.ok () ∧
    ((sendCommand [] envB "build" [] true
        (.rejected (errorMessage ["build"])) false).result = some (.ok ()) ∧
      strIncludes (errorMessage ["build"]) (String.intercalate " " ["build"]) = true) :=
  ⟨rfl, rfl, rfl,
    sendCommand_swallows_watcher_rejection [] envB "build" [] "/tmp/lock.log"
      (some "/usr/bin/python3") rfl rfl rfl⟩

/-- C2 counterexample: with `args = ["a b"]` the invocation actually sent
spreads the argument verbatim; the invocation the claim describes (every
token, including each element of `args`, quoted) is not the one sent. -/
theorem sendCommand_args_unquoted_counterexample :
    Event.terminalSendCommand "/usr/bin/python3"
        (specRewrittenArgs "/ext/pythonFiles/shell_exec.py" "build" ["a b"] "/tmp/lock.log") ∉
      (sendCommand [] envB "build" ["a b"] true .pending true).events ∧
    Event.terminalSendCommand "/usr/bin/python3"
        (rewrittenArgs "/ext/pythonFiles/shell_exec.py" "build" ["a b"] "/tmp/lock.log") ∈
      (sendCommand [] envB "build" ["a b"] true .pending true).events ∧
    specRewrittenArgs "/ext/pythonFiles/shell_exec.py" "build" ["a b"] "/tmp/lock.log" ≠
      rewrittenArgs "/ext/pythonFiles/shell_exec.py" "build" ["a b"] "/tmp/lock.log" := by
  refine ⟨?_, ?_, ?_⟩ <;> decide

/-- C2 amended: the invocation sent to the terminal is
`[interpreter] [quoted(helperScriptPath)] [quoted(command)] args…
[quoted(signalFilePath)]` — the helper path, the command and the
signal-file path are quoted, while the elements of `args` are passed
through verbatim, unquoted. -/
theorem sendCommand_invocation_shape (disposables : List String) (env : Env)
    (command : String) (args : List String) (watcher : WatcherOutcome) (cancelFired : Bool)
    (path : String) (i : Option String)
    (hLock : env.createTempFileResult = .ok path)
    (hInterp : resolveInterpreter env = .ok i) :
    Event.terminalSendCommand (interpOrPython i)
        ([fileToCommandArgument env.helperScriptPath, fileToCommandArgument command] ++
          args ++ [fileToCommandArgument path]) ∈
      (sendCommand disposables env command args true watcher cancelFired).events := by
  rcases hT : env.terminalSendResult with e | u
  · simp [sendCommand, hLock, sendCommandLocked, hInterp, hT, rewrittenArgs]
  · rcases hR : raceOutcome (completedCatchNoop watcher) cancelFired with _ | r <;>
      simp [sendCommand, hLock, sendCommandLocked, hInterp, hT, hR, rewrittenArgs]

/-- Witness for the amended C2: the unquoted-args invocation is sent. -/
theorem sendCommand_invocation_shape_witness :
    envB.createTempFileResult = Except.ok "/tmp/lock.log" ∧
    resolveInterpreter envB = Except.ok (some "/usr/bin/python3") ∧
    Event.terminalSendCommand (interpOrPython (some "/usr/bin/python3"))
        ([fileToCommandArgument envB.helperScriptPath, fileToCommandArgument "build"] ++
          ["a b"] ++ [fileToCommandArgument "/tmp/lock.log"]) ∈
      (sendCommand [] envB "build" ["a b"] true .pending true).events :=
  ⟨rfl, rfl,
    sendCommand_invocation_shape [] envB "build" ["a b"] .pending true "/tmp/lock.log"
      (some "/usr/bin/python3") rfl rfl⟩

/-- C8: once the signal file has been created, on every path on which the
call returns — success, command failure, cancellation, interpreter
resolution error, or terminal send error — the watcher is disposed
(interval cleared) and the signal file is disposed. -/
theorem sendCommand_cleanup_on_return (disposables : List String) (env : Env)
    (command : String) (args : List String) (watcher : WatcherOutcome) (cancelFired : Bool)
    (path : String) (r : Except String Unit)
    (hLock : env.createTempFileResult = .ok path)
    (hRet : (sendCommand disposables env command args true watcher cancelFired).result = some r) :
    Event.clearIntervalStop ∈
      (sendCommand disposables env command args true watcher cancelFired).events ∧
    Event.disposeTempFile path ∈
      (sendCommand disposables env command args true watcher cancelFired).events := by
  rcases hI : resolveInterpreter env with e | i
  · simp [sendCommand, hLock, sendCommandLocked, hI]
  · rcases hT : env.terminalSendResult with e | u
    · simp [sendCommand, hLock, sendCommandLocked, hI, hT]
    · rcases hR : raceOutcome (completedCatchNoop watcher) cancelFired with _ | r2
      · simp [sendCommand, hLock, sendCommandLocked, hI, hT, hR] at hRet
      · simp [sendCommand, hLock, sendCommandLocked, hI, hT, hR]

/-- Witness for C8 on the success path. -/
theorem sendCommand_cleanup_on_return_witness :
    envB.createTempFileResult = Except.ok "/tmp/lock.log" ∧
    (sendCommand [] envB "build" [] true .resolved true).result = some (.ok ()) ∧
    (Event.clearIntervalStop ∈ (sendCommand [] envB "build" [] true .resolved true).events ∧
      Event.disposeTempFile "/tmp/lock.log" ∈
        (sendCommand [] envB "build" [] true .resolved true).events) :=
  ⟨rfl, rfl,
    sendCommand_cleanup_on_return [] envB "build" [] .resolved true "/tmp/lock.log"
      (.ok ()) rfl rfl⟩

/-- C9: if creating the signal file fails, the failure propagates and no
terminal send happens; if it succeeds, any terminal send in the trace is
strictly preceded by the signal-file creation and the start of polling. -/
theorem sendCommand_order_guarantee (disposables : List String) (env : Env)
    (command : String) (args : List String) (watcher : WatcherOutcome) (cancelFired : Bool) :
    (∀ e, env.createTempFileResult = .error e →
      (sendCommand disposables env command args true watcher cancelFired).result =
        some (.error e) ∧
      ∀ c a, Event.terminalSendCommand c a ∉
        (sendCommand disposables env command args true watcher cancelFired).events) ∧
    (∀ path c a, env.createTempFileResult = .ok path →
      Event.terminalSendCommand c a ∈
        (sendCommand disposables env command args true watcher cancelFired).events →
      ∃ pre post,
        (sendCommand disposables env command args true watcher cancelFired).events =
          pre ++ Event.terminalSendCommand c a :: post ∧
        Event.createTempFile path ∈ pre ∧ Event.setIntervalStart ∈ pre) := by
  constructor
  · intro e he
    simp [sendCommand, he]
  · intro path c a hp hmem
    rcases hI : resolveInterpreter env with e | i
    · simp [sendCommand, hp, sendCommandLocked, hI] at hmem
    · rcases hT : env.terminalSendResult with e | u
      · simp [sendCommand, hp, sendCommandLocked, hI, hT] at hmem
        obtain ⟨hc, ha⟩ := hmem
        subst hc; subst ha
        exact ⟨[.createTempFile path, .pushDisposable path, .setIntervalStart],
          [.clearIntervalStop, .disposeTempFile path],
          by simp [sendCommand, hp, sendCommandLocked, hI, hT], by simp, by simp⟩
      · rcases hR : raceOutcome (completedCatchNoop watcher) cancelFired with _ | r
        · simp [sendCommand, hp, sendCommandLocked, hI, hT, hR] at hmem
          obtain ⟨hc, ha⟩ := hmem
          subst hc; subst ha
          exact ⟨[.createTempFile path, .pushDisposable path, .setIntervalStart],
            [.awaitRace],
            by simp [sendCommand, hp, sendCommandLocked, hI, hT, hR], by simp, by simp⟩
        · simp [sendCommand, hp, sendCommandLocked, hI, hT, hR] at hmem
          obtain ⟨hc, ha⟩ := hmem
          subst hc; subst ha
          exact ⟨[.createTempFile path, .pushDisposable path, .setIntervalStart],
            [.awaitRace, .clearIntervalStop, .disposeTempFile path],
            by simp [sendCommand, hp, sendCommandLocked, hI, hT, hR], by simp, by simp⟩

/-- Witness for C9: a failing creation propagates with no send, and on the
success path the send is preceded by creation and polling start. -/
theorem sendCommand_order_guarantee_witness :
    (envErr.createTempFileResult = Except.error "ENOSPC" ∧
      (sendCommand [] envErr "build" [] true .pending false).result =
        some (.error "ENOSPC") ∧
      Event.terminalSendCommand "python" [] ∉
        (sendCommand [] envErr "build" [] true .pending false).events) ∧
    (envB.createTempFileResult = Except.ok "/tmp/lock.log" ∧
      ∃ pre post,
        (sendCommand [] envB "build" [] true .resolved false).events =
          pre ++ Event.terminalSendCommand "/usr/bin/python3"
            (rewrittenArgs "/ext/pythonFiles/shell_exec.py" "build" [] "/tmp/lock.log") :: post ∧
        Event.createTempFile "/tmp/lock.log" ∈ pre ∧ Event.setIntervalStart ∈ pre) := by
  constructor
  · refine ⟨rfl, ?_, ?_⟩
    · exact ((sendCommand_order_guarantee [] envErr "build" [] .pending false).1
        "ENOSPC" rfl).1
    · exact ((sendCommand_order_guarantee [] envErr "build" [] .pending false).1
        "ENOSPC" rfl).2 "python" []
  · refine ⟨rfl, ?_⟩
    exact (sendCommand_order_guarantee [] envB "build" [] .resolved false).2
      "/tmp/lock.log" "/usr/bin/python3"
      (rewrittenArgs "/ext/pythonFiles/shell_exec.py" "build" [] "/tmp/lock.log")
      rfl (by decide)

/-- C10: the signal file path is pushed onto the service's disposables and
is still there after the call returns (the per-call cleanup already
disposed it once), so the service's dispose loop — which attempts every
disposable even when disposal throws — disposes it a second time. -/
theorem lockFile_double_dispose (disposables : List String) (env : Env)
    (command : String) (args : List String) (watcher : WatcherOutcome) (cancelFired : Bool)
    (path : String) (r : Except String Unit) (throws : String → Bool)
    (hLock : env.createTempFileResult = .ok path)
    (hRet : (sendCommand disposables env command args true watcher cancelFired).result = some r) :
    path ∈ (sendCommand disposables env command args true watcher cancelFired).disposablesAfter ∧
    Event.disposeTempFile path ∈
      (sendCommand disposables env command args true watcher cancelFired).events ∧
    Event.disposeTempFile path ∈
      disposeLoop throws
        (sendCommand disposables env command args true watcher cancelFired).disposablesAfter := by
  have hd : (sendCommand disposables env command args true watcher cancelFired).disposablesAfter
      = disposables ++ [path] := by
    rcases hI : resolveInterpreter env with e | i
    · simp [sendCommand, hLock, sendCommandLocked, hI]
    · rcases hT : env.terminalSendResult with e | u
      · simp [sendCommand, hLock, sendCommandLocked, hI, hT]
      · rcases hR : raceOutcome (completedCatchNoop watcher) cancelFired with _ | r2 <;>
          simp [sendCommand, hLock, sendCommandLocked, hI, hT, hR]
  refine ⟨by simp [hd], ?_, ?_⟩
  · rcases hI : resolveInterpreter env with e | i
    · simp [sendCommand, hLock, sendCommandLocked, hI]
    · rcases hT : env.terminalSendResult with e | u
      · simp [sendCommand, hLock, sendCommandLocked, hI, hT]
      · rcases hR : raceOutcome (completedCatchNoop watcher) cancelFired with _ | r2
        · simp [sendCommand, hLock, sendCommandLocked, hI, hT, hR] at hRet
        · simp [sendCommand, hLock, sendCommandLocked, hI, hT, hR]
  · rw [disposeLoop_eq_map, hd]
    simp

/-- Witness for C10 on the success path, with a disposer that throws. -/
theorem lockFile_double_dispose_witness :
    envB.createTempFileResult = Except.ok "/tmp/lock.log" ∧
    (sendCommand [] envB "build" [] true .resolved false).result = some (.ok ()) ∧
    ("/tmp/lock.log" ∈ (sendCommand [] envB "build" [] true .resolved false).disposablesAfter ∧
      Event.disposeTempFile "/tmp/lock.log" ∈
        (sendCommand [] envB "build" [] true .resolved false).events ∧
      Event.disposeTempFile "/tmp/lock.log" ∈
        disposeLoop (fun _ => true)
          (sendCommand [] envB "build" [] true .resolved false).disposablesAfter) :=
  ⟨rfl, rfl,
    lockFile_double_dispose [] envB "build" [] .resolved false "/tmp/lock.log"
      (.ok ()) (fun _ => true) rfl rfl⟩

end SyncTerminal
